import Mathlib

/-!
Verification of the call-session state machine of the socket-test
repository (browser-side WebRTC call client).

The embedding translates the module-level mutable state of `webrtc.js`
and `socket.js` into one explicit record `St`, and each exported
function / socket event handler into a pure function
`St → inputs → St × List Eff`, where `Eff` records the messages emitted
over the signaling transport and the user-visible status calls.
External collaborators (capture devices, the REST initiate-call
endpoint, the RTCPeerConnection primitive) are modelled by explicit
environment parameters carrying their outcome; the browser primitive's
deterministic state rules (signaling-state transitions on applying
descriptions) are embedded directly.  Handlers run atomically, matching
the single-threaded event loop; `setTimeout` callbacks are separate
events (`timerAutoReject`, `timerDeferredIce`) consuming an armed entry
in the state.
-/

namespace SocketTest

/-- Call status string literals of `webrtc.js` / `socket.js`
(`'INCOMING' | 'ACCEPTED' | 'CALLING' | 'CONNECTED' | 'ENDED'`). -/
inductive CallStatus
  | incoming
  | accepted
  | calling
  | connected
  | ended
deriving DecidableEq

/-- Rejection reason literals: `'Call rejected by staff'`,
`'Call timeout - no response'` (the auto-reject timeout reason), and an
abstract constructor for reasons carried by inbound events. -/
inductive RejectReason
  | rejectedByStaff
  | timeoutNoResponse
  | remoteReason (n : Nat)
deriving DecidableEq

/-- RTCPeerConnection signaling states used by the source. -/
inductive SignalingState
  | stable
  | haveRemoteOffer
  | haveLocalOffer
  | haveLocalPranswer
deriving DecidableEq

/-- ICE connection states observed by `oniceconnectionstatechange`. -/
inductive IceConnState
  | iceNew
  | checking
  | connected
  | completed
  | failed
  | disconnected
deriving DecidableEq

/-- Candidate types: `relay`, `srflx`, everything else (`host`). -/
inductive CandType
  | relay
  | srflx
  | host
deriving DecidableEq

/-- A connectivity candidate; `cid` is the opaque payload identity. -/
structure IceCandidate where
  ctype : CandType
  cid : Nat
deriving DecidableEq

/-- Priority labels attached when sending a candidate. -/
inductive Priority
  | high
  | medium
  | low
deriving DecidableEq

/-- Priority derived from the candidate type
(`relay ⇒ high, srflx ⇒ medium, else low`). -/
def prioOf (t : CandType) : Priority :=
  match t with
  | .relay => .high
  | .srflx => .medium
  | .host => .low

/-- Kind of a session description. -/
inductive DescKind
  | offerKind
  | answerKind
deriving DecidableEq

/-- A session description (offer or answer); `sid` is the payload
identity of the SDP document. -/
structure SessionDesc where
  kind : DescKind
  sid : Nat
deriving DecidableEq

/-- Kind of a local media track. -/
inductive TrackKind
  | audio
  | video
deriving DecidableEq

/-- A local media track. -/
structure MediaTrack where
  kind : TrackKind
  tid : Nat
deriving DecidableEq

/-- A local media stream (`localStream`). -/
structure CaptureStream where
  tracks : List MediaTrack
deriving DecidableEq

/-- The negotiation handle (`RTCPeerConnection`).  `gen` numbers handle
creations so distinct instances are distinguishable; `applied` records
the candidates applied to this handle via `addIceCandidate`. -/
structure PeerConn where
  gen : Nat
  signalingState : SignalingState
  remoteDescription : Option SessionDesc
  localDescription : Option SessionDesc
  iceConnectionState : IceConnState
  senders : List MediaTrack
  applied : List IceCandidate
deriving DecidableEq

/-- The Call Record (`currentCall`). -/
structure CallRec where
  id : Nat
  userId : Nat
  staffUserId : Nat
  status : CallStatus
deriving DecidableEq

/-- Role of the local participant, from `getUserInfo()`. -/
inductive Role
  | user
  | staff
deriving DecidableEq

/-- Identity of the local participant. -/
structure UserInfo where
  role : Role
  uid : Nat
deriving DecidableEq

/-- Entry of the local candidate buffer (`iceCandidateBuffer`). -/
structure BufEntry where
  candidate : IceCandidate
  targetUserId : Nat
  priority : Priority
  timestamp : Nat
deriving DecidableEq

/-- Payload of an `ice-candidate` signaling event. -/
structure CandMsg where
  callId : Nat
  targetUserId : Nat
  candidate : IceCandidate
deriving DecidableEq

/-- Payload of an `offer` signaling event (`from` is `fromId`). -/
structure OfferMsg where
  callId : Nat
  offer : SessionDesc
  fromId : Nat
deriving DecidableEq

/-- Payload of an `answer` signaling event. -/
structure AnswerMsg where
  answer : SessionDesc
deriving DecidableEq

/-- Payload of an `incoming-call` signaling event. -/
structure IncomingMsg where
  callId : Nat
  callerId : Nat
  staffUserId : Nat
  offer : Option SessionDesc
deriving DecidableEq

/-- User-visible status calls (`showStatus` / `updateCallStatus`),
one constructor per modelled call site. -/
inductive StatusMsg
  | selectStaffPrompt
  | staffBusyStatus
  | startFailedStatus
  | callingStatus
  | noIncomingToAcceptStatus
  | acceptFailedStatus
  | mediaTracksFailedStatus
  | noLocalStreamStatus
  | waitingForOfferStatus
  | alreadyEstablishedStatus
  | acceptConnectingStatus
  | waitingForConnectionStatus
  | noIncomingToRejectStatus
  | callRejectedLocalStatus
  | noActiveToEndStatus
  | callEndedLocalStatus
  | offerFailedStatus
  | invalidOfferStatus
  | answerSentStatus
  | connectionErrorStatus
  | answerFailedStatus
  | connectedStatus
  | connFailedStatus
  | callRejectedShown (reason : RejectReason)
  | callAcceptedShownStatus
deriving DecidableEq

/-- Observable effects: messages emitted over the relay transport plus
status displays. -/
inductive Eff
  | joinCall (callId : Nat)
  | callAccept (callId targetUserId : Nat)
  | callReject (callId targetUserId : Nat) (reason : RejectReason)
  | callEnd (callId : Nat)
  | callStart (callId : Nat)
  | offerOut (callId target : Nat) (d : SessionDesc)
  | answerOut (callId target : Nat) (d : SessionDesc)
  | iceCandidateOut (callId target : Nat) (c : IceCandidate) (p : Priority)
  | processPendingOfferOut (callId : Nat)
  | leaveCall (callId : Nat)
  | statusShown (m : StatusMsg)
deriving DecidableEq

/-- The module-level mutable state of `webrtc.js` and `socket.js`.
`deferred` holds candidates whose application was postponed by the
`setTimeout` in `handleIceCandidate`; `autoRejectTimeouts` holds the
call ids with an armed 60-second auto-reject timer; `stoppedTracks`
records every track on which `track.stop()` was called; `nextGen`
numbers handle creations. -/
structure St where
  userInfo : UserInfo
  peerConnection : Option PeerConn
  localStream : Option CaptureStream
  currentCall : Option CallRec
  iceCandidateBuffer : List BufEntry
  iceCandidateCount : Nat
  currentCallId : Option Nat
  pendingOffers : List (Nat × SessionDesc)
  pendingCandidates : List (Nat × List CandMsg)
  autoRejectTimeouts : List Nat
  deferred : List IceCandidate
  stoppedTracks : List MediaTrack
  nextGen : Nat
deriving DecidableEq

/-- Insert (replacing any previous binding) into an association map. -/
def mapInsert {α : Type} (k : Nat) (v : α) (m : List (Nat × α)) : List (Nat × α) :=
  (k, v) :: m.filter (fun p => p.1 ≠ k)

/-- Remove a key from an association map (`Map.delete`). -/
def mapErase {α : Type} (k : Nat) (m : List (Nat × α)) : List (Nat × α) :=
  m.filter (fun p => p.1 ≠ k)

/-- Look a key up in an association map (`Map.get`). -/
def mapGet {α : Type} (k : Nat) (m : List (Nat × α)) : Option α :=
  (m.find? (fun p => p.1 == k)).map (·.2)

/-- Remove the first occurrence of a candidate from a list. -/
def eraseFirstCand : List IceCandidate → IceCandidate → List IceCandidate
  | [], _ => []
  | x :: xs, c => if x = c then xs else x :: eraseFirstCand xs c

/-- Remove a call id's timer entry (`clearTimeout` + `Map.delete`;
keys of the timeout map are unique). -/
def timersRemove (l : List Nat) (k : Nat) : List Nat :=
  l.filter (fun x => x ≠ k)

/-- A freshly constructed `RTCPeerConnection`: signaling state
`stable`, no descriptions, ICE state `new`, with the current local
tracks attached as senders when a stream is present. -/
def freshPC (g : Nat) (stream : Option CaptureStream) : PeerConn :=
  { gen := g
    signalingState := .stable
    remoteDescription := none
    localDescription := none
    iceConnectionState := .iceNew
    senders := (stream.map (·.tracks)).getD []
    applied := [] }

/-- `createPeerConnection` of `webrtc.js`: closes any existing handle
and replaces it with a fresh one carrying the current local tracks. -/
def createPeerConnection (s : St) : St :=
  { s with
    peerConnection := some (freshPC s.nextGen s.localStream)
    nextGen := s.nextGen + 1 }

/-- Outcome of `initializeMedia`: `grant = none` means both capture
attempts threw; `grant = some st` is the acquired stream. -/
structure MediaEnv where
  grant : Option CaptureStream
deriving DecidableEq

/-- Ensure a local stream exists (`if (!localStream) await
initializeMedia()`); `none` is the thrown-error outcome. -/
def ensureMedia (s : St) (env : MediaEnv) : Option St :=
  if s.localStream.isSome then some s
  else env.grant.map (fun st => { s with localStream := some st })

/-- `handleIceCandidate` of `webrtc.js`: with no handle the candidate
is dropped (logged error, early return); with a handle but no remote
description the candidate is deferred via a one-shot `setTimeout`;
otherwise it is applied immediately with `addIceCandidate`. -/
def handleIceCandidate (s : St) (d : CandMsg) : St :=
  match s.peerConnection with
  | none => s
  | some p =>
    match p.remoteDescription with
    | none => { s with deferred := s.deferred ++ [d.candidate] }
    | some _ =>
      { s with peerConnection := some { p with applied := p.applied ++ [d.candidate] } }

/-- The `setTimeout` callback of `handleIceCandidate` firing for one
deferred candidate: the entry is consumed, and the candidate is applied
only if the current module-level connection has a remote description at
fire time (with no connection the null access throws and the candidate
is lost; with no remote description it is silently dropped). -/
def fireDeferred (s : St) (c : IceCandidate) : St :=
  let s1 := { s with deferred := eraseFirstCand s.deferred c }
  match s1.peerConnection with
  | none => s1
  | some p =>
    match p.remoteDescription with
    | none => s1
    | some _ =>
      { s1 with peerConnection := some { p with applied := p.applied ++ [c] } }

/-- `setRemoteDescription` with an answer: valid only from
`have-local-offer` / `have-local-pranswer`, moving to `stable`;
otherwise the primitive throws (`none`). -/
def applyRemoteAnswer (p : PeerConn) (a : SessionDesc) : Option PeerConn :=
  if a.kind = .answerKind ∧
      (p.signalingState = .haveLocalOffer ∨ p.signalingState = .haveLocalPranswer) then
    some { p with remoteDescription := some a, signalingState := .stable }
  else
    none

/-- `handleAnswer` of `webrtc.js`: lazily creates a handle if absent
(`ensurePeerConnection`), ignores the answer when the signaling state
is already `stable`, otherwise applies it as the remote description
(failures of the primitive are caught and shown). -/
def handleAnswer (s : St) (d : AnswerMsg) : St × List Eff :=
  let s0 := if s.peerConnection.isNone then createPeerConnection s else s
  match s0.peerConnection with
  | none => (s0, [.statusShown .connectionErrorStatus])
  | some p =>
    if p.signalingState = .stable then
      (s0, [])
    else
      match applyRemoteAnswer p d.answer with
      | some p1 => ({ s0 with peerConnection := some p1 }, [])
      | none => (s0, [.statusShown .answerFailedStatus])

/-- Identity check of `handleOffer`: a USER expects the offer from the
record's staff user, STAFF expects it from the record's user. -/
def expectedSender (info : UserInfo) (c : CallRec) (fromId : Nat) : Prop :=
  match info.role with
  | .user => fromId = c.staffUserId
  | .staff => fromId = c.userId

instance (info : UserInfo) (c : CallRec) (fromId : Nat) :
    Decidable (expectedSender info c fromId) := by
  unfold expectedSender
  cases info.role <;> infer_instance

/-- `handleOffer` of `webrtc.js`: requires a Call Record and a matching
sender identity; ensures local media (acquiring it if absent — a
failure there is caught and answered with a recovery rebuild of the
handle); rebuilds the handle; validates, then applies the remote offer;
creates and applies a local answer; waits (settle delay and bounded ICE
gathering, both atomic here); transmits the answer. -/
def handleOffer (s : St) (d : OfferMsg) (env : MediaEnv) : St × List Eff :=
  match s.currentCall with
  | none => (s, [])
  | some c =>
    if expectedSender s.userInfo c d.fromId then
      match ensureMedia s env with
      | none =>
        (createPeerConnection { s with peerConnection := none },
         [.statusShown .offerFailedStatus])
      | some s1 =>
        let s2 := createPeerConnection s1
        if d.offer.kind = .offerKind then
          match s2.peerConnection with
          | none => (s2, [])
          | some p =>
            let ans : SessionDesc := { kind := .answerKind, sid := d.offer.sid }
            let p2 := { p with
              remoteDescription := some d.offer
              localDescription := some ans
              signalingState := SignalingState.stable }
            ({ s2 with peerConnection := some p2 },
             [.answerOut c.id d.fromId ans, .statusShown .answerSentStatus])
        else
          (s2, [.statusShown .invalidOfferStatus])
    else
      (s, [])

/-- `processPendingOfferDirectly` of `socket.js`: consumes (deletes)
the buffered offer for the call id if present, and — only when the
Call Record is `ACCEPTED` — services it through `handleOffer` and then
replays and clears the pending candidates for that id.  Note the
source deletes the buffered offer before checking the status. -/
def processPendingOfferDirectly (s : St) (callId : Nat) (env : MediaEnv) :
    St × List Eff × Bool :=
  match mapGet callId s.pendingOffers with
  | none => (s, [], false)
  | some off =>
    let s1 := { s with pendingOffers := mapErase callId s.pendingOffers }
    match s1.currentCall with
    | none => (s1, [], false)
    | some c =>
      if c.status = .accepted then
        let r := handleOffer s1 { callId := callId, offer := off, fromId := c.userId } env
        let cands := (mapGet callId r.1.pendingCandidates).getD []
        let s3 := cands.foldl handleIceCandidate r.1
        let s4 :=
          if cands.isEmpty then s3
          else { s3 with pendingCandidates := mapErase callId s3.pendingCandidates }
        (s4, r.2, true)
      else
        (s1, [], false)

/-- `cleanup` of `webrtc.js`: closes the handle, stops every local
track, clears the Call Record, the candidate buffer and the counter. -/
def cleanup (s : St) : St :=
  { s with
    peerConnection := none
    localStream := none
    currentCall := none
    iceCandidateBuffer := []
    iceCandidateCount := 0
    stoppedTracks := s.stoppedTracks ++ (s.localStream.map (·.tracks)).getD [] }

/-- `resetCall` of `socket.js`: cancels the auto-reject timer of the
current call id, emits `leave-call` for the current record, deletes the
pending offer/candidate entries of the current call id, runs the
WebRTC `cleanup`, and clears the current call id. -/
def resetCall (s : St) : St × List Eff :=
  let s1 :=
    match s.currentCallId with
    | some cid =>
      if cid ∈ s.autoRejectTimeouts then
        { s with autoRejectTimeouts := timersRemove s.autoRejectTimeouts cid }
      else s
    | none => s
  let effs : List Eff :=
    match s.currentCall with
    | some c => [.leaveCall c.id]
    | none => []
  let s2 :=
    match s1.currentCallId with
    | some cid =>
      { s1 with
        pendingOffers := mapErase cid s1.pendingOffers
        pendingCandidates := mapErase cid s1.pendingCandidates }
    | none => s1
  ({ cleanup s2 with currentCallId := none }, effs)

/-- `handleCallRejected` of `socket.js`: shows the rejection with its
reason and resets the call. -/
def handleCallRejected (s : St) (reason : RejectReason) : St × List Eff :=
  let r := resetCall s
  (r.1, .statusShown (.callRejectedShown reason) :: r.2)

/-- The 60-second auto-reject timer elapsing for a call id: fires only
while the timer for that id is armed; the callback rejects (with the
timeout reason) only when the Call Record still exists with the same id
and is still `INCOMING`, and in every case removes its timer entry. -/
def autoRejectFire (s : St) (callId : Nat) : St × List Eff :=
  if callId ∈ s.autoRejectTimeouts then
    match s.currentCall with
    | some c =>
      if c.id = callId ∧ c.status = .incoming then
        let r := handleCallRejected s .timeoutNoResponse
        ({ r.1 with autoRejectTimeouts := timersRemove r.1.autoRejectTimeouts callId }, r.2)
      else
        ({ s with autoRejectTimeouts := timersRemove s.autoRejectTimeouts callId }, [])
    | none =>
      ({ s with autoRejectTimeouts := timersRemove s.autoRejectTimeouts callId }, [])
  else
    (s, [])

/-- The tail of `acceptCall` after the pending offer was serviced and
local media ensured: track checks, sender re-add, and the
signaling-state dependent answer/wait logic of the source. -/
def acceptTail (s2 : St) (c : CallRec) (effs1 : List Eff) : St × List Eff :=
  match s2.localStream with
  | none => (s2, effs1 ++ [.statusShown .noLocalStreamStatus])
  | some stream =>
    if stream.tracks.isEmpty then
      (s2, effs1 ++ [.statusShown .mediaTracksFailedStatus])
    else
      match s2.peerConnection with
      | none => (s2, effs1 ++ [.statusShown .waitingForOfferStatus])
      | some p0 =>
        let p := if p0.senders.isEmpty then { p0 with senders := stream.tracks } else p0
        let s3 := { s2 with peerConnection := some p }
        if p.signalingState = .stable then
          if (p.iceConnectionState = .connected ∨ p.iceConnectionState = .completed) ∧
              (s3.currentCall.map (·.status) ≠ some .connected) then
            (s3, effs1 ++ [.statusShown .alreadyEstablishedStatus, .callStart c.id])
          else
            (s3, effs1 ++ [.statusShown .alreadyEstablishedStatus])
        else
          if p.remoteDescription.isSome ∧
              (p.signalingState = .haveRemoteOffer ∨
               p.signalingState = .haveLocalPranswer) then
            let ans : SessionDesc :=
              { kind := .answerKind, sid := (p.remoteDescription.map (·.sid)).getD 0 }
            let p1 := { p with
              localDescription := some ans
              signalingState := SignalingState.stable }
            ({ s3 with peerConnection := some p1 },
             effs1 ++ [.answerOut c.id c.userId ans, .statusShown .acceptConnectingStatus])
          else
            (s3, effs1 ++ [.statusShown .waitingForConnectionStatus])

/-- `acceptCall` of `webrtc.js`: requires a current call; emits
`join-call` and `call-accept`, marks the record `ACCEPTED`, services
any buffered offer (directly, falling back to the relayed
`process-pending-offer` event), ensures local media (a thrown
acquisition error is caught by the outer recovery, which rebuilds the
handle), then runs `acceptTail`. -/
def acceptCall (s : St) (env : MediaEnv) : St × List Eff :=
  match s.currentCall with
  | none => (s, [.statusShown .noIncomingToAcceptStatus])
  | some c =>
    let effs0 : List Eff := [.joinCall c.id, .callAccept c.id c.userId]
    let s1 := { s with currentCall := some { c with status := CallStatus.accepted } }
    let r := processPendingOfferDirectly s1 c.id env
    let effs1 := effs0 ++ r.2.1 ++
      (if r.2.2 then [] else [.processPendingOfferOut c.id])
    match ensureMedia r.1 env with
    | none =>
      (createPeerConnection r.1, effs1 ++ [.statusShown .acceptFailedStatus])
    | some s2 => acceptTail s2 c effs1

/-- `rejectCall` of `webrtc.js`: requires a current call; notifies the
counterpart with `call-reject` and runs `cleanup`. -/
def rejectCall (s : St) : St × List Eff :=
  match s.currentCall with
  | none => (s, [.statusShown .noIncomingToRejectStatus])
  | some c =>
    (cleanup s,
     [.callReject c.id c.userId .rejectedByStaff, .statusShown .callRejectedLocalStatus])

/-- `endCall` of `webrtc.js`: requires a current call; notifies with
`call-end` and runs `cleanup`. -/
def endCall (s : St) : St × List Eff :=
  match s.currentCall with
  | none => (s, [.statusShown .noActiveToEndStatus])
  | some c =>
    (cleanup s, [.callEnd c.id, .statusShown .callEndedLocalStatus])

/-- Outcome of the environment when handling an inbound invite:
`grant` is the media-acquisition result (when needed) and `pcOk` tells
whether constructing the fresh `RTCPeerConnection` succeeds. -/
structure IncomingEnv where
  grant : Option CaptureStream
  pcOk : Bool
deriving DecidableEq

/-- `handleIncomingCall` of `socket.js`: ensures local media, stores an
`INCOMING` Call Record, builds a fresh handle, and arms the 60-second
auto-reject timer; any thrown step is caught and yields `false` with
the timer never armed.  (The multiplicity of same-id timer handles is
abstracted to the set of armed call ids.) -/
def handleIncomingCall (s : St) (d : IncomingMsg) (env : IncomingEnv) : St × Bool :=
  match ensureMedia s { grant := env.grant } with
  | none => (s, false)
  | some s1 =>
    let newRec : CallRec :=
      { id := d.callId
        userId := d.callerId
        staffUserId := d.staffUserId
        status := CallStatus.incoming }
    let s2 := { s1 with currentCall := some newRec }
    if env.pcOk then
      let s3 := createPeerConnection s2
      ({ s3 with autoRejectTimeouts := d.callId :: timersRemove s3.autoRejectTimeouts d.callId },
       true)
    else
      ({ s2 with peerConnection := none }, false)

/-- The `socket.on('incoming-call')` handler: records the current call
id, joins the call room, attaches any buffered offer to the event data,
runs `handleIncomingCall`, and on success re-stores the attached offer
for manual acceptance. -/
def onIncomingCall (s : St) (d : IncomingMsg) (env : IncomingEnv) : St × List Eff :=
  let s1 := { s with currentCallId := some d.callId }
  let attached :=
    match mapGet d.callId s1.pendingOffers with
    | some off => some off
    | none => d.offer
  let r := handleIncomingCall s1 d env
  if r.2 then
    match attached with
    | some off =>
      ({ r.1 with pendingOffers := mapInsert d.callId off r.1.pendingOffers },
       [.joinCall d.callId])
    | none => (r.1, [.joinCall d.callId])
  else
    (r.1, [.joinCall d.callId])

/-- The `socket.on('offer')` handler: buffers the offer unless it is
for the current call id and the record is already `ACCEPTED`, in which
case it ensures a handle and services the offer.  The replay loop over
`bufferedIceCandidates` that follows in the source throws a
`ReferenceError` (the identifier is never declared in the module), so
the handler aborts there and no replay happens. -/
def onOffer (s : St) (d : OfferMsg) (env : MediaEnv) : St × List Eff :=
  match s.currentCallId with
  | none => ({ s with pendingOffers := mapInsert d.callId d.offer s.pendingOffers }, [])
  | some cid =>
    if d.callId = cid then
      match s.currentCall with
      | some c =>
        if c.status = .accepted then
          let s1 := if s.peerConnection.isNone then createPeerConnection s else s
          handleOffer s1 d env
        else
          ({ s with pendingOffers := mapInsert d.callId d.offer s.pendingOffers }, [])
      | none =>
        ({ s with pendingOffers := mapInsert d.callId d.offer s.pendingOffers }, [])
    else
      ({ s with pendingOffers := mapInsert d.callId d.offer s.pendingOffers }, [])

/-- The `socket.on('ice-candidate')` handler: a candidate for a
non-current call id is appended to the pending-candidate map; for the
current call id with no handle, the source's
`bufferedIceCandidates.push(data)` throws a `ReferenceError` (the
identifier is never declared), so the candidate is lost; with a handle
it is forwarded to `handleIceCandidate`. -/
def onIceCandidate (s : St) (d : CandMsg) : St × List Eff :=
  let park : St :=
    { s with pendingCandidates :=
        (mapInsert d.callId ((mapGet d.callId s.pendingCandidates).getD [] ++ [d])
          s.pendingCandidates) }
  match s.currentCallId with
  | none => (park, [])
  | some cid =>
    if d.callId = cid then
      match s.peerConnection with
      | none => (s, [])
      | some _ => (handleIceCandidate s d, [])
    else
      (park, [])

/-- The `socket.on('call-accepted')` handler (caller side): records the
call id and replays, then clears, the pending candidates for it. -/
def onCallAccepted (s : St) (callId : Nat) : St × List Eff :=
  let s1 := { s with currentCallId := some callId }
  let cands := (mapGet callId s1.pendingCandidates).getD []
  let s2 := cands.foldl handleIceCandidate s1
  let s3 :=
    if cands.isEmpty then s2
    else { s2 with pendingCandidates := mapErase callId s2.pendingCandidates }
  (s3, [.statusShown .callAcceptedShownStatus])

/-- Response of the initiate-call REST endpoint: success with a call
record, `staffBusy = true`, or a generic failure. -/
inductive RestResp
  | ok (call : CallRec)
  | busy
  | fail
deriving DecidableEq

/-- Environment of `startCall`: the selected staff id, the
media-acquisition result (when needed) and the REST response. -/
structure StartEnv where
  selectedStaffId : Option Nat
  grant : Option CaptureStream
  rest : RestResp
deriving DecidableEq

/-- `startCall` of `webrtc.js`: requires a selected staff member;
ensures media and builds a handle, creates and applies a local offer,
then calls the REST initiate endpoint.  On `staffBusy` it surfaces the
busy status and returns (before any record is stored or message sent);
on generic failure the catch shows an error and runs `cleanup`; on
success it stores the record and emits `join-call` then `offer`. -/
def startCall (s : St) (env : StartEnv) : St × List Eff :=
  match env.selectedStaffId with
  | none => (s, [.statusShown .selectStaffPrompt])
  | some _ =>
    match ensureMedia s { grant := env.grant } with
    | none => (cleanup s, [.statusShown .startFailedStatus])
    | some s1 =>
      let s2 := createPeerConnection s1
      match s2.peerConnection with
      | none => (s2, [])
      | some p =>
        let off : SessionDesc := { kind := .offerKind, sid := s1.nextGen }
        let p1 := { p with
          localDescription := some off
          signalingState := SignalingState.haveLocalOffer }
        let s3 := { s2 with peerConnection := some p1 }
        match env.rest with
        | .busy => (s3, [.statusShown .staffBusyStatus])
        | .fail => (cleanup s3, [.statusShown .startFailedStatus])
        | .ok call =>
          let s4 := { s3 with currentCall := some call }
          (s4,
           [.joinCall call.id, .offerOut call.id call.staffUserId off,
            .statusShown .callingStatus])

/-- The `oniceconnectionstatechange` callback: records the new ICE
state; on `connected` it shows the connected status and emits
`call-start` unless the record's status already reads `CONNECTED`; on
`failed` it terminates the call. -/
def iceStateChange (s : St) (st : IceConnState) : St × List Eff :=
  match s.peerConnection with
  | none => (s, [])
  | some p =>
    let s1 := { s with peerConnection := some { p with iceConnectionState := st } }
    match st with
    | .connected =>
      match s1.currentCall with
      | some c =>
        if c.status ≠ .connected then
          (s1, [.statusShown .connectedStatus, .callStart c.id])
        else
          (s1, [.statusShown .connectedStatus])
      | none => (s1, [.statusShown .connectedStatus])
    | .failed =>
      let r := endCall s1
      (r.1, .statusShown .connFailedStatus :: r.2)
    | _ => (s1, [])

/-- The `onicecandidate` callback for a locally discovered candidate:
guarded by the presence of a current call; the candidate is always
buffered first, then transmitted with its derived priority (the
bounded send retry is abstracted to one emission). -/
def onLocalCandidate (s : St) (c : IceCandidate) : St × List Eff :=
  match s.currentCall with
  | none => (s, [])
  | some call =>
    let target :=
      match s.userInfo.role with
      | .user => call.staffUserId
      | .staff => call.userId
    let entry : BufEntry :=
      { candidate := c, targetUserId := target, priority := prioOf c.ctype, timestamp := 0 }
    ({ s with
        iceCandidateCount := s.iceCandidateCount + 1
        iceCandidateBuffer := s.iceCandidateBuffer ++ [entry] },
     [.iceCandidateOut call.id target c (prioOf c.ctype)])

/-- One inbound event of the single-threaded event loop. -/
inductive Ev
  | sockIncoming (d : IncomingMsg) (env : IncomingEnv)
  | sockOffer (d : OfferMsg) (env : MediaEnv)
  | sockIce (d : CandMsg)
  | sockAnswer (d : AnswerMsg)
  | sockCallAccepted (callId : Nat)
  | uiAccept (env : MediaEnv)
  | uiReject
  | uiEnd
  | uiStart (env : StartEnv)
  | timerAutoReject (callId : Nat)
  | timerDeferredIce (c : IceCandidate)
  | iceConn (st : IceConnState)
  | localCand (c : IceCandidate)
deriving DecidableEq

/-- Dispatch one event to its handler.  A deferred-candidate timer
exists only for a queued entry; a fire for an entry not in the queue is
a no-op. -/
def step (s : St) (e : Ev) : St × List Eff :=
  match e with
  | .sockIncoming d env => onIncomingCall s d env
  | .sockOffer d env => onOffer s d env
  | .sockIce d => onIceCandidate s d
  | .sockAnswer d => handleAnswer s d
  | .sockCallAccepted cid => onCallAccepted s cid
  | .uiAccept env => acceptCall s env
  | .uiReject => rejectCall s
  | .uiEnd => endCall s
  | .uiStart env => startCall s env
  | .timerAutoReject cid => autoRejectFire s cid
  | .timerDeferredIce c => if c ∈ s.deferred then (fireDeferred s c, []) else (s, [])
  | .iceConn st => iceStateChange s st
  | .localCand c => onLocalCandidate s c

/-- Run a sequence of events, accumulating the emitted effects. -/
def run (s : St) : List Ev → St × List Eff
  | [] => (s, [])
  | e :: es =>
    let r := step s e
    let r2 := run r.1 es
    (r2.1, r.2 ++ r2.2)

/-- The candidates applied to the live handle, if any. -/
def appliedOf (s : St) : List IceCandidate :=
  (s.peerConnection.map (·.applied)).getD []

/-- Count the `call-accept` messages in an effect list. -/
def countAccept (l : List Eff) : Nat :=
  l.countP fun e => match e with | .callAccept _ _ => true | _ => false

/-- Count the `call-reject` messages in an effect list. -/
def countReject (l : List Eff) : Nat :=
  l.countP fun e => match e with | .callReject _ _ _ => true | _ => false

/-- Count the `call-start` messages in an effect list. -/
def countStart (l : List Eff) : Nat :=
  l.countP fun e => match e with | .callStart _ => true | _ => false

/-- A staff-side participant, used in the concrete scenarios. -/
def staffInfo : UserInfo := { role := .staff, uid := 5 }

/-- The idle initial state: no call, no handle, no media, all maps and
buffers empty. -/
def s0 : St :=
  { userInfo := staffInfo
    peerConnection := none
    localStream := none
    currentCall := none
    iceCandidateBuffer := []
    iceCandidateCount := 0
    currentCallId := none
    pendingOffers := []
    pendingCandidates := []
    autoRejectTimeouts := []
    deferred := []
    stoppedTracks := []
    nextGen := 0 }

/-- A concrete host candidate. -/
def cand100 : IceCandidate := { ctype := .host, cid := 100 }

/-- An `ice-candidate` event payload for call 7 carrying `cand100`. -/
def d7 : CandMsg := { callId := 7, targetUserId := 5, candidate := cand100 }

/-- An `offer` event payload for call 7 from user 2. -/
def o7 : OfferMsg :=
  { callId := 7, offer := { kind := .offerKind, sid := 3 }, fromId := 2 }

/-- An `incoming-call` payload: call 7, caller user 2, staff user 5. -/
def inc7 : IncomingMsg :=
  { callId := 7, callerId := 2, staffUserId := 5, offer := none }

/-- A one-track capture stream. -/
def stream1 : CaptureStream := { tracks := [{ kind := .audio, tid := 1 }] }

/-- Environment granting capture and a working connection constructor. -/
def ienv : IncomingEnv := { grant := some stream1, pcOk := true }

/-- Media environment in which an acquisition attempt would fail (only
reached when no stream is already held). -/
def menv : MediaEnv := { grant := none }

/-- State after the candidate, the offer and the invite for call 7 all
arrived, in that order, with the call still ringing (`INCOMING`). -/
def sI : St :=
  (run s0 [.sockIce d7, .sockOffer o7 menv, .sockIncoming inc7 ienv]).1

/-- State after the first `acceptCall` on `sI`. -/
def sAcc : St := (acceptCall sI menv).1

/-- State after an invite was accepted before any offer arrived: an
`ACCEPTED` record with a live handle that has no remote description. -/
def sB : St := (run s0 [.sockIncoming inc7 ienv, .uiAccept menv]).1

/-- State of `sB` after the candidate and then the offer arrived: an
`ACCEPTED` call with a live, fully negotiated handle. -/
def sC : St := (run sB [.sockIce d7, .sockOffer o7 menv]).1

/-- State right after the invite for call 7 (ringing, timer armed). -/
def sInc : St := (run s0 [.sockIncoming inc7 ienv]).1

/-- Initiation environment whose REST response reports the target as
busy. -/
def envB : StartEnv :=
  { selectedStaffId := some 9, grant := some stream1, rest := .busy }

/-- A state holding a pending offer and an armed timer for call 99
while call 42 is the current call id. -/
def s9 : St :=
  { s0 with
    currentCallId := some 42
    pendingOffers := [(99, { kind := .offerKind, sid := 1 })]
    autoRejectTimeouts := [42, 99] }

/-- Fold `handleAnswer` over a sequence of `answer` events,
accumulating the emitted effects. -/
def runAnswers (s : St) : List AnswerMsg → St × List Eff
  | [] => (s, [])
  | d :: ds =>
    let r := handleAnswer s d
    let r2 := runAnswers r.1 ds
    (r2.1, r.2 ++ r2.2)

/-- A handle that has issued a local offer and awaits the answer. -/
def pHLO : PeerConn :=
  { gen := 0
    signalingState := .haveLocalOffer
    remoteDescription := none
    localDescription := some { kind := .offerKind, sid := 0 }
    iceConnectionState := .iceNew
    senders := []
    applied := [] }

/-- A state owning the awaiting handle `pHLO`. -/
def sHLO : St := { s0 with peerConnection := some pHLO }

/-- A concrete `answer` event payload. -/
def aMsg : AnswerMsg := { answer := { kind := .answerKind, sid := 0 } }

/-- The idle state already holding captured media. -/
def sM : St := { s0 with localStream := some stream1 }

/-- The Call Record of call 7 once accepted. -/
def cAcc : CallRec := { id := 7, userId := 2, staffUserId := 5, status := .accepted }

/-- The handle owned by `sAcc`: fully negotiated (offer applied, local
answer set, signaling settled) with one applied candidate. -/
def pAcc : PeerConn :=
  { gen := 1
    signalingState := .stable
    remoteDescription := some { kind := .offerKind, sid := 3 }
    localDescription := some { kind := .answerKind, sid := 3 }
    iceConnectionState := .iceNew
    senders := [{ kind := .audio, tid := 1 }]
    applied := [cand100] }

theorem cleanup_currentCall (s : St) : (cleanup s).currentCall = none := rfl

theorem createPeerConnection_currentCall (s : St) :
    (createPeerConnection s).currentCall = s.currentCall := rfl

theorem createPeerConnection_pc (s : St) :
    (createPeerConnection s).peerConnection =
      some (freshPC s.nextGen s.localStream) := rfl

theorem handleIceCandidate_currentCall (s : St) (d : CandMsg) :
    (handleIceCandidate s d).currentCall = s.currentCall := by
  cases hp : s.peerConnection with
  | none => simp [handleIceCandidate, hp]
  | some p => cases hr : p.remoteDescription <;> simp [handleIceCandidate, hp, hr]

theorem foldl_hic_currentCall (l : List CandMsg) (s : St) :
    (l.foldl handleIceCandidate s).currentCall = s.currentCall := by
  induction l generalizing s with
  | nil => rfl
  | cons d ds ih =>
    rw [List.foldl_cons, ih, handleIceCandidate_currentCall]

theorem ensureMedia_currentCall {s s' : St} {env : MediaEnv}
    (h : ensureMedia s env = some s') : s'.currentCall = s.currentCall := by
  unfold ensureMedia at h
  split at h
  · cases h; rfl
  · cases hg : env.grant with
    | none => rw [hg] at h; cases h
    | some st => rw [hg] at h; cases h; rfl

theorem timersRemove_not_mem (l : List Nat) (k : Nat) :
    k ∉ timersRemove l k := by
  simp [timersRemove, List.mem_filter]

theorem mapGet_erase_self {α : Type} (k : Nat) (m : List (Nat × α)) :
    mapGet k (mapErase k m) = none := by
  induction m with
  | nil => rfl
  | cons p m ih =>
    by_cases h : p.1 = k
    · simp [mapErase, mapGet, List.filter_cons, h]
    · simp [mapErase, mapGet, List.filter_cons, h, List.find?_cons]

/-- C2 (counterexample): a candidate that arrives while no negotiation
handle exists (and no call is current) is parked in the pending map and
IS applied later once a handle is created for the same call id: after
the candidate, the offer, the invite and the manual accept for call 7,
the candidate is among the handle's applied candidates — refuting
"dropped and never applied later". -/
theorem C2_late_apply_counterexample :
    s0.peerConnection = none ∧
    (run s0 [.sockIce d7]).1.peerConnection = none ∧
    cand100 ∈ appliedOf
      (run s0 [.sockIce d7, .sockOffer o7 menv, .sockIncoming inc7 ienv,
               .uiAccept menv]).1 := by
  decide

/-- C2 (amended): a candidate delivered to the negotiator's candidate
handler while no handle exists is dropped with a logged failure and
leaves no trace in the state, so that delivery can never be applied. -/
theorem C2_handler_drops_without_handle (s : St) (d : CandMsg)
    (h : s.peerConnection = none) : handleIceCandidate s d = s := by
  unfold handleIceCandidate
  rw [h]

theorem C2_handler_drops_without_handle_witness :
    s0.peerConnection = none ∧ handleIceCandidate s0 d7 = s0 :=
  ⟨rfl, C2_handler_drops_without_handle s0 d7 rfl⟩

/-- C7 (code_bug): from a connected-call state whose record status is
`ACCEPTED` (no code path ever records `CONNECTED`), two ICE transitions
to `connected` emit the `call-start` notification twice — the guard
`status !== 'CONNECTED'` never blocks, so duplicate start events are
sent on repeated connected transitions within the same call. -/
theorem C7_duplicate_call_start :
    sC.currentCall.map (·.status) = some .accepted ∧
    sC.peerConnection.isSome = true ∧
    countStart (run sC [.iceConn .connected, .iceConn .connected]).2 = 2 := by
  decide

/-- C8 (counterexample): in the busy scenario the session state is NOT
left unchanged — `startCall` already built a negotiation handle (and
acquired media) before the REST call, and the busy return keeps them. -/
theorem C8_busy_state_changed_counterexample :
    (startCall s0 envB).2 = [.statusShown .staffBusyStatus] ∧
    (startCall s0 envB).1 ≠ s0 ∧
    (startCall s0 envB).1.peerConnection ≠ none := by
  decide

/-- C9 (counterexample): `resetCall` only deletes the pending entries
and the timer of the CURRENT call id; an entry and an armed timer for a
different call id (99, while call 42 is current) survive the reset —
refuting "clears the pending offer and pending candidate maps, and
cancels any live auto-reject timer". -/
theorem C9_foreign_entries_survive_counterexample :
    s9.currentCallId = some 42 ∧
    mapGet 99 (resetCall s9).1.pendingOffers =
      some { kind := .offerKind, sid := 1 } ∧
    99 ∈ (resetCall s9).1.autoRejectTimeouts := by
  decide

/-- C1 (counterexample): accepting the ringing call 7 twice emits the
`call-accept` notification twice — `acceptCall` has no status guard and
re-emits on every invocation, refuting "sends at most one call-accept
notification". -/
theorem C1_duplicate_accept_counterexample :
    sI.currentCall.map (·.status) = some .incoming ∧
    countAccept (run sI [.uiAccept menv, .uiAccept menv]).2 = 2 := by
  decide

/-- C3 (counterexample): after accepting the ringing call 7 the
60-second auto-reject timer for call 7 is still armed — `acceptCall`
never cancels it, refuting "after accept, the timer is no longer
armed". -/
theorem C3_timer_still_armed_counterexample :
    sI.currentCall.map (·.status) = some .incoming ∧
    7 ∈ sI.autoRejectTimeouts ∧
    7 ∈ (acceptCall sI menv).1.autoRejectTimeouts := by
  decide

theorem handleAnswer_stable {s : St} {p : PeerConn} (d : AnswerMsg)
    (hp : s.peerConnection = some p) (hs : p.signalingState = .stable) :
    handleAnswer s d = (s, []) := by
  simp [handleAnswer, hp, hs]

theorem runAnswers_stable (ds : List AnswerMsg) :
    ∀ (s : St) (p : PeerConn), s.peerConnection = some p →
      p.signalingState = .stable → runAnswers s ds = (s, []) := by
  induction ds with
  | nil => intro s p _ _; rfl
  | cons d ds ih =>
    intro s p hp hs
    simp [runAnswers, handleAnswer_stable d hp hs, ih s p hp hs]

/-- C4: once the handle's signaling state is settled, every further
`answer` event is a strict no-op; starting from a handle awaiting its
answer, the first answer is applied as the remote description (settling
the state) and any sequence of duplicates after it leaves the state
unchanged and emits nothing. -/
theorem C4_duplicate_answers_ignored (s : St) (p : PeerConn) (d : AnswerMsg)
    (ds : List AnswerMsg)
    (hp : s.peerConnection = some p) (hs : p.signalingState = .haveLocalOffer)
    (hk : d.answer.kind = .answerKind) :
    ((handleAnswer s d).1.peerConnection.map (·.remoteDescription)) =
      some (some d.answer) ∧
    runAnswers (handleAnswer s d).1 ds = ((handleAnswer s d).1, []) := by
  have hnot : ¬ p.signalingState = SignalingState.stable := by
    rw [hs]; intro hcon; cases hcon
  have happ : applyRemoteAnswer p d.answer =
      some ({ p with remoteDescription := some d.answer,
                     signalingState := SignalingState.stable }) := by
    unfold applyRemoteAnswer
    rw [if_pos ⟨hk, Or.inl hs⟩]
  obtain ⟨p', happ', hst, hrd⟩ :
      ∃ p', applyRemoteAnswer p d.answer = some p' ∧
        p'.signalingState = SignalingState.stable ∧
        p'.remoteDescription = some d.answer :=
    ⟨_, happ, rfl, rfl⟩
  have h1 : handleAnswer s d = ({ s with peerConnection := some p' }, []) := by
    simp [handleAnswer, hp, hnot, happ']
  rw [h1]
  exact ⟨by simp [hrd], runAnswers_stable ds _ p' rfl hst⟩

/-- C5: a remote candidate is never applied before the handle has a
remote description: with a handle but no remote description the
candidate is deferred, queued exactly once for a single later retry;
the retry consumes its queue entry and applies the candidate only when
the then-current handle has a remote description; and in the concrete
candidate-then-offer sequence on call 7 the deferred candidate ends up
applied after the offer set the remote description. -/
theorem C5_candidate_deferral :
    (∀ (s : St) (p : PeerConn) (d : CandMsg), s.peerConnection = some p →
      p.remoteDescription = none →
      handleIceCandidate s d = { s with deferred := s.deferred ++ [d.candidate] }) ∧
    (∀ (s : St) (c : IceCandidate),
      (fireDeferred s c).deferred = eraseFirstCand s.deferred c ∧
      (s.peerConnection = none → appliedOf (fireDeferred s c) = appliedOf s) ∧
      (∀ p, s.peerConnection = some p → p.remoteDescription = none →
        appliedOf (fireDeferred s c) = appliedOf s) ∧
      (∀ p, s.peerConnection = some p → p.remoteDescription.isSome = true →
        appliedOf (fireDeferred s c) = appliedOf s ++ [c])) ∧
    (sB.peerConnection.map (·.remoteDescription) = some none ∧
      (run sB [.sockIce d7]).1.deferred = [cand100] ∧
      cand100 ∈ appliedOf
        (run sB [.sockIce d7, .sockOffer o7 menv, .timerDeferredIce cand100]).1) := by
  refine ⟨?_, ?_, by decide⟩
  · intro s p d hp hr
    simp [handleIceCandidate, hp, hr]
  · intro s c
    refine ⟨?_, ?_, ?_, ?_⟩
    · cases hp : s.peerConnection with
      | none => simp [fireDeferred, hp]
      | some p => cases hr : p.remoteDescription <;> simp [fireDeferred, hp, hr]
    · intro hp; simp [fireDeferred, appliedOf, hp]
    · intro p hp hr; simp [fireDeferred, appliedOf, hp, hr]
    · intro p hp hr
      cases hrd : p.remoteDescription with
      | none => simp [hrd] at hr
      | some r => simp [fireDeferred, appliedOf, hp, hrd]

theorem C5_candidate_deferral_witness :
    sB.peerConnection = some (freshPC 0 (some stream1)) ∧
    (freshPC 0 (some stream1)).remoteDescription = none ∧
    handleIceCandidate sB d7 = { sB with deferred := sB.deferred ++ [cand100] } :=
  ⟨by decide, rfl,
   C5_candidate_deferral.1 sB (freshPC 0 (some stream1)) d7 (by decide) rfl⟩

theorem rejectCall_some {s : St} {c : CallRec} (hc : s.currentCall = some c) :
    rejectCall s = (cleanup s,
      [.callReject c.id c.userId .rejectedByStaff,
       .statusShown .callRejectedLocalStatus]) := by
  simp [rejectCall, hc]

theorem rejectCall_none {s : St} (hc : s.currentCall = none) :
    rejectCall s = (s, [.statusShown .noIncomingToRejectStatus]) := by
  simp [rejectCall, hc]

theorem resetCall_snd {s : St} {c : CallRec} (hc : s.currentCall = some c) :
    (resetCall s).2 = [.leaveCall c.id] := by
  simp [resetCall, hc]

theorem autoRejectFire_noReject_some {s : St} {c : CallRec} (cid : Nat)
    (hc : s.currentCall = some c) (hne : ¬(c.id = cid ∧ c.status = .incoming)) :
    (autoRejectFire s cid).2 = [] ∧
    (autoRejectFire s cid).1.currentCall = s.currentCall := by
  unfold autoRejectFire
  by_cases hm : cid ∈ s.autoRejectTimeouts
  · simp [hm, hc, hne]
  · simp [hm]

theorem autoRejectFire_none_case {s : St} (cid : Nat)
    (hc : s.currentCall = none) :
    (autoRejectFire s cid).2 = [] ∧
    (autoRejectFire s cid).1.currentCall = s.currentCall := by
  unfold autoRejectFire
  by_cases hm : cid ∈ s.autoRejectTimeouts <;> simp [hm, hc]

theorem autoRejectFire_fires {s : St} {c : CallRec} {cid : Nat}
    (hm : cid ∈ s.autoRejectTimeouts) (hc : s.currentCall = some c)
    (hid : c.id = cid) (hst : c.status = .incoming) :
    (autoRejectFire s cid).2 =
      [.statusShown (.callRejectedShown .timeoutNoResponse), .leaveCall cid] ∧
    (autoRejectFire s cid).1.currentCall = none := by
  unfold autoRejectFire
  rw [if_pos hm, hc]
  dsimp only
  rw [if_pos ⟨hid, hst⟩]
  refine ⟨?_, rfl⟩
  show Eff.statusShown (.callRejectedShown .timeoutNoResponse) :: (resetCall s).2 = _
  rw [resetCall_snd hc, hid]

/-- C6: the 60-second auto-reject timer, when it elapses, rejects only
if the Call Record still exists with the same call id and is still
`INCOMING` — a stale firing emits nothing and leaves the record alone;
a timer-driven rejection carries the timeout reason and sends zero
`call-reject` notifications over the transport, so whichever way a
manual rejection races the timer, at most one rejection notification
goes out. -/
theorem C6_auto_reject_timeout :
    (∀ (s : St) (cid : Nat) (c : CallRec), s.currentCall = some c →
      ¬(c.id = cid ∧ c.status = .incoming) →
      (autoRejectFire s cid).2 = [] ∧
      (autoRejectFire s cid).1.currentCall = s.currentCall) ∧
    (∀ (s : St) (cid : Nat), s.currentCall = none →
      (autoRejectFire s cid).2 = [] ∧
      (autoRejectFire s cid).1.currentCall = s.currentCall) ∧
    (∀ (s : St) (cid : Nat) (c : CallRec), cid ∈ s.autoRejectTimeouts →
      s.currentCall = some c → c.id = cid → c.status = .incoming →
      (autoRejectFire s cid).2 =
        [.statusShown (.callRejectedShown .timeoutNoResponse), .leaveCall cid] ∧
      countReject (autoRejectFire s cid).2 = 0) ∧
    (∀ (s : St) (c : CallRec), s.currentCall = some c → c.status = .incoming →
      countReject (run s [.uiReject, .timerAutoReject c.id]).2 ≤ 1 ∧
      countReject (run s [.timerAutoReject c.id, .uiReject]).2 ≤ 1) := by
  refine ⟨?_, ?_, ?_, ?_⟩
  · intro s cid c hc hne
    exact autoRejectFire_noReject_some cid hc hne
  · intro s cid hc
    exact autoRejectFire_none_case cid hc
  · intro s cid c hm hc hid hst
    refine ⟨(autoRejectFire_fires hm hc hid hst).1, ?_⟩
    rw [(autoRejectFire_fires hm hc hid hst).1]
    simp [countReject]
  · intro s c hc hst
    constructor
    · have h2 := (autoRejectFire_none_case (s := cleanup s) c.id rfl).1
      simp [run, step, rejectCall_some hc, h2, countReject]
    · by_cases hm : c.id ∈ s.autoRejectTimeouts
      · have h1 := autoRejectFire_fires hm hc rfl hst
        have h4 := rejectCall_none h1.2
        simp [run, step, h1.1, h4, countReject]
      · have h1 : autoRejectFire s c.id = (s, []) := by
          unfold autoRejectFire; rw [if_neg hm]
        simp [run, step, h1, rejectCall_some hc, countReject]

theorem C6_auto_reject_timeout_witness :
    (sInc.autoRejectTimeouts = [7] ∧
      sInc.currentCall =
        some ({ id := 7, userId := 2, staffUserId := 5, status := .incoming })) ∧
    ((autoRejectFire sInc 7).2 =
        [.statusShown (.callRejectedShown .timeoutNoResponse), .leaveCall 7] ∧
      countReject (autoRejectFire sInc 7).2 = 0) ∧
    countReject (run sInc [.uiReject, .timerAutoReject 7]).2 ≤ 1 :=
  ⟨⟨by decide, by decide⟩,
   C6_auto_reject_timeout.2.2.1 sInc 7
     { id := 7, userId := 2, staffUserId := 5, status := .incoming }
     (by decide) (by decide) rfl rfl,
   (C6_auto_reject_timeout.2.2.2 sInc
     { id := 7, userId := 2, staffUserId := 5, status := .incoming }
     (by decide) rfl).1⟩

theorem ensureMedia_cases {s s' : St} {env : MediaEnv}
    (h : ensureMedia s env = some s') :
    s' = s ∨ ∃ st, s.localStream = none ∧ env.grant = some st ∧
      s' = { s with localStream := some st } := by
  unfold ensureMedia at h
  split at h
  next hsome =>
    exact Or.inl (Option.some.inj h).symm
  next hns =>
    cases hg : env.grant with
    | none => rw [hg] at h; cases h
    | some st =>
      rw [hg] at h
      refine Or.inr ⟨st, ?_, rfl, (Option.some.inj h).symm⟩
      cases hl : s.localStream with
      | none => rfl
      | some u => rw [hl] at hns; simp at hns

/-- C8 (amended): on a busy REST response, `startCall` creates no Call
Record, sends no signaling message, and surfaces the busy-specific
status distinct from the generic initiation error; the call record,
the current call id, the pending maps and the timers are unchanged —
only the negotiation handle (and media) prepared before the REST call
remain in place. -/
theorem C8_busy_outcome (s : St) (env : StartEnv) (k : Nat)
    (hsel : env.selectedStaffId = some k)
    (hmed : s.localStream.isSome = true)
    (hrest : env.rest = .busy) :
    (startCall s env).2 = [.statusShown .staffBusyStatus] ∧
    (startCall s env).1.currentCall = s.currentCall ∧
    (startCall s env).1.currentCallId = s.currentCallId ∧
    (startCall s env).1.pendingOffers = s.pendingOffers ∧
    (startCall s env).1.pendingCandidates = s.pendingCandidates ∧
    (startCall s env).1.autoRejectTimeouts = s.autoRejectTimeouts ∧
    StatusMsg.staffBusyStatus ≠ StatusMsg.startFailedStatus := by
  have hem : ensureMedia s { grant := env.grant } = some s := by
    unfold ensureMedia; rw [if_pos hmed]
  simp [startCall, hsel, hem, hrest, createPeerConnection]

theorem C8_busy_outcome_witness :
    envB.selectedStaffId = some 9 ∧ sM.localStream.isSome = true ∧
    envB.rest = .busy ∧
    (startCall sM envB).2 = [.statusShown .staffBusyStatus] :=
  ⟨rfl, rfl, rfl, (C8_busy_outcome sM envB 9 rfl rfl rfl).1⟩

theorem resetCall_of_idle (r : St) (h1 : r.currentCallId = none)
    (h2 : r.currentCall = none) (h3 : r.localStream = none)
    (h4 : r.peerConnection = none) (h5 : r.iceCandidateBuffer = [])
    (h6 : r.iceCandidateCount = 0) :
    resetCall r = (r, []) := by
  cases r
  simp_all [resetCall, cleanup]

/-- C9 (amended): `resetCall` is idempotent (a second invocation from
the post-cleanup state changes nothing and emits nothing), and a single
invocation tears down the negotiation handle, stops all local media
tracks, clears the Call Record, the candidate buffer and the current
call id, and removes the pending offer entry, the pending candidate
entry and the auto-reject timer OF THE CURRENT CALL ID (entries for
other call ids are left in place), returning the session to idle. -/
theorem C9_reset_idempotent_cleanup (s : St) :
    resetCall (resetCall s).1 = ((resetCall s).1, []) ∧
    (resetCall s).1.peerConnection = none ∧
    (resetCall s).1.localStream = none ∧
    (resetCall s).1.currentCall = none ∧
    (resetCall s).1.iceCandidateBuffer = [] ∧
    (resetCall s).1.iceCandidateCount = 0 ∧
    (resetCall s).1.currentCallId = none ∧
    (∀ cid, s.currentCallId = some cid →
      mapGet cid (resetCall s).1.pendingOffers = none ∧
      mapGet cid (resetCall s).1.pendingCandidates = none ∧
      cid ∉ (resetCall s).1.autoRejectTimeouts) ∧
    (∀ st, s.localStream = some st →
      ∀ t ∈ st.tracks, t ∈ (resetCall s).1.stoppedTracks) := by
  refine ⟨resetCall_of_idle _ rfl rfl rfl rfl rfl rfl, rfl, rfl, rfl, rfl, rfl, rfl,
    ?_, ?_⟩
  · intro cid hc
    unfold resetCall
    rw [hc]
    by_cases hm : cid ∈ s.autoRejectTimeouts
    · simp [hm, hc, cleanup, mapGet_erase_self, timersRemove_not_mem]
    · simp [hm, hc, cleanup, mapGet_erase_self]
  · intro st hst t ht
    unfold resetCall
    cases hc : s.currentCallId with
    | none => simp [hc, cleanup, hst, List.mem_append, ht]
    | some cid =>
      by_cases hm : cid ∈ s.autoRejectTimeouts <;>
        simp [hm, hc, cleanup, hst, List.mem_append, ht]

theorem C9_reset_idempotent_cleanup_witness :
    s9.currentCallId = some 42 ∧ s9.localStream = none ∧
    (resetCall (resetCall s9).1 = ((resetCall s9).1, []) ∧
      mapGet 42 (resetCall s9).1.pendingOffers = none ∧
      42 ∉ (resetCall s9).1.autoRejectTimeouts) :=
  ⟨rfl, rfl,
   (C9_reset_idempotent_cleanup s9).1,
   ((C9_reset_idempotent_cleanup s9).2.2.2.2.2.2.2.1 42 rfl).1,
   ((C9_reset_idempotent_cleanup s9).2.2.2.2.2.2.2.1 42 rfl).2.2⟩

/-- C10: on an inbound invite, `handleIncomingCall` acquires local
media (if not already held) and builds a fresh negotiation handle while
the Call Record is `INCOMING` (before any manual accept): on success a
live handle (with no remote description — negotiation withheld) and
captured media exist, the pending-offer map is untouched, and the
auto-reject timer for the call id is armed; if media acquisition or
handle construction throws, the handler returns failure and no
auto-reject timer is armed (the armed set is unchanged). -/
theorem C10_incoming_invite :
    (∀ (s : St) (d : IncomingMsg) (env : IncomingEnv) (st : CaptureStream),
      (s.localStream = some st ∨ (s.localStream = none ∧ env.grant = some st)) →
      env.pcOk = true →
      (handleIncomingCall s d env).2 = true ∧
      (handleIncomingCall s d env).1.currentCall =
        some { id := d.callId, userId := d.callerId,
               staffUserId := d.staffUserId, status := .incoming } ∧
      (handleIncomingCall s d env).1.localStream = some st ∧
      (handleIncomingCall s d env).1.peerConnection =
        some (freshPC s.nextGen (some st)) ∧
      (freshPC s.nextGen (some st)).remoteDescription = none ∧
      d.callId ∈ (handleIncomingCall s d env).1.autoRejectTimeouts ∧
      (handleIncomingCall s d env).1.pendingOffers = s.pendingOffers) ∧
    (∀ (s : St) (d : IncomingMsg) (env : IncomingEnv),
      ((s.localStream = none ∧ env.grant = none) ∨ env.pcOk = false) →
      (handleIncomingCall s d env).2 = false ∧
      (handleIncomingCall s d env).1.autoRejectTimeouts = s.autoRejectTimeouts) := by
  constructor
  · intro s d env st hmed hpc
    rcases hmed with hsome | ⟨hnone, hg⟩
    · have hem : ensureMedia s { grant := env.grant } = some s := by
        unfold ensureMedia; rw [if_pos (by rw [hsome]; rfl)]
      simp [handleIncomingCall, hem, hpc, createPeerConnection, freshPC, hsome]
    · have hem : ensureMedia s { grant := env.grant } =
          some ({ s with localStream := some st }) := by
        unfold ensureMedia
        rw [if_neg (by rw [hnone]; simp), hg]
        rfl
      simp [handleIncomingCall, hem, hpc, createPeerConnection, freshPC]
  · intro s d env hfail
    rcases hfail with ⟨hnone, hg⟩ | hpc
    · have hem : ensureMedia s { grant := env.grant } = none := by
        unfold ensureMedia
        rw [if_neg (by rw [hnone]; simp), hg]
        rfl
      simp [handleIncomingCall, hem]
    · cases hem : ensureMedia s { grant := env.grant } with
      | none => simp [handleIncomingCall, hem]
      | some s1 =>
        have : s1.autoRejectTimeouts = s.autoRejectTimeouts := by
          rcases ensureMedia_cases hem with h | ⟨u, _, _, h⟩ <;> rw [h]
        simp [handleIncomingCall, hem, hpc, this]

theorem C10_incoming_invite_witness :
    (s0.localStream = none ∧ ienv.grant = some stream1) ∧ ienv.pcOk = true ∧
    ((handleIncomingCall s0 inc7 ienv).2 = true ∧
      (handleIncomingCall s0 inc7 ienv).1.currentCall =
        some { id := 7, userId := 2, staffUserId := 5, status := .incoming } ∧
      7 ∈ (handleIncomingCall s0 inc7 ienv).1.autoRejectTimeouts) :=
  ⟨⟨rfl, rfl⟩, rfl,
   (C10_incoming_invite.1 s0 inc7 ienv stream1 (Or.inr ⟨rfl, rfl⟩) rfl).1,
   (C10_incoming_invite.1 s0 inc7 ienv stream1 (Or.inr ⟨rfl, rfl⟩) rfl).2.1,
   (C10_incoming_invite.1 s0 inc7 ienv stream1 (Or.inr ⟨rfl, rfl⟩) rfl).2.2.2.2.2.1⟩

theorem handleIceCandidate_timers (s : St) (d : CandMsg) :
    (handleIceCandidate s d).autoRejectTimeouts = s.autoRejectTimeouts := by
  cases hp : s.peerConnection with
  | none => simp [handleIceCandidate, hp]
  | some p => cases hr : p.remoteDescription <;> simp [handleIceCandidate, hp, hr]

theorem foldl_hic_timers (l : List CandMsg) (s : St) :
    (l.foldl handleIceCandidate s).autoRejectTimeouts = s.autoRejectTimeouts := by
  induction l generalizing s with
  | nil => rfl
  | cons d ds ih =>
    rw [List.foldl_cons, ih, handleIceCandidate_timers]

theorem handleOffer_preserves (s : St) (d : OfferMsg) (env : MediaEnv) :
    (handleOffer s d env).1.currentCall = s.currentCall ∧
    (handleOffer s d env).1.autoRejectTimeouts = s.autoRejectTimeouts := by
  unfold handleOffer
  cases hc : s.currentCall with
  | none => exact ⟨hc, rfl⟩
  | some c =>
    dsimp only
    by_cases hid : expectedSender s.userInfo c d.fromId
    · rw [if_pos hid]
      cases hem : ensureMedia s env with
      | none => exact ⟨rfl, rfl⟩
      | some s1 =>
        rcases ensureMedia_cases hem with h | ⟨st, hns, hg, h⟩ <;> subst h <;>
          by_cases hk : d.offer.kind = .offerKind <;>
            simp [hk, createPeerConnection, freshPC, hc]
    · rw [if_neg hid]
      exact ⟨hc, rfl⟩

theorem ppod_preserves (s : St) (callId : Nat) (env : MediaEnv) :
    (processPendingOfferDirectly s callId env).1.currentCall = s.currentCall ∧
    (processPendingOfferDirectly s callId env).1.autoRejectTimeouts =
      s.autoRejectTimeouts := by
  unfold processPendingOfferDirectly
  cases hpo : mapGet callId s.pendingOffers with
  | none => exact ⟨rfl, rfl⟩
  | some off =>
    dsimp only
    cases hc : s.currentCall with
    | none => exact ⟨rfl, rfl⟩
    | some c =>
      dsimp only
      by_cases hst : c.status = .accepted
      · rw [if_pos hst]
        dsimp only
        generalize hR : handleOffer
            { s with currentCall := some c,
                     pendingOffers := mapErase callId s.pendingOffers }
            { callId := callId, offer := off, fromId := c.userId } env = R
        have h1 : R.1.currentCall = some c := by
          rw [← hR]
          exact (handleOffer_preserves _ _ _).1
        have h2 : R.1.autoRejectTimeouts = s.autoRejectTimeouts := by
          rw [← hR]
          exact (handleOffer_preserves _ _ _).2
        by_cases hce : ((mapGet callId R.1.pendingCandidates).getD []).isEmpty <;>
          simp [hce, foldl_hic_currentCall, foldl_hic_timers, h1, h2]
      · rw [if_neg hst]
        exact ⟨rfl, rfl⟩

theorem acceptTail_preserves (s2 : St) (c : CallRec) (effs1 : List Eff) :
    (acceptTail s2 c effs1).1.currentCall = s2.currentCall ∧
    (acceptTail s2 c effs1).1.autoRejectTimeouts = s2.autoRejectTimeouts := by
  unfold acceptTail
  cases hls : s2.localStream with
  | none => exact ⟨rfl, rfl⟩
  | some stream =>
    dsimp only
    by_cases hemp : stream.tracks.isEmpty
    · rw [if_pos hemp]
      exact ⟨rfl, rfl⟩
    · rw [if_neg hemp]
      cases hpc : s2.peerConnection with
      | none => exact ⟨rfl, rfl⟩
      | some p0 =>
        dsimp only
        split <;> (try split) <;> (try split) <;> exact ⟨rfl, rfl⟩

theorem acceptCall_preserves (s : St) (c : CallRec) (env : MediaEnv)
    (hc : s.currentCall = some c) :
    (acceptCall s env).1.currentCall =
      some ({ c with status := CallStatus.accepted }) ∧
    (acceptCall s env).1.autoRejectTimeouts = s.autoRejectTimeouts := by
  unfold acceptCall
  rw [hc]
  dsimp only
  generalize hR : processPendingOfferDirectly
      { s with currentCall := some ({ c with status := CallStatus.accepted }) }
      c.id env = R
  have h1 : R.1.currentCall = some ({ c with status := CallStatus.accepted }) := by
    rw [← hR]
    exact (ppod_preserves _ _ _).1
  have h2 : R.1.autoRejectTimeouts = s.autoRejectTimeouts := by
    rw [← hR]
    exact (ppod_preserves _ _ _).2
  cases hem : ensureMedia R.1 env with
  | none => exact ⟨h1, h2⟩
  | some s2 =>
    rcases ensureMedia_cases hem with h | ⟨st, hns, hg, h⟩ <;> subst h
    · exact ⟨(acceptTail_preserves _ _ _).1.trans h1,
        (acceptTail_preserves _ _ _).2.trans h2⟩
    · exact ⟨(acceptTail_preserves _ _ _).1.trans h1,
        (acceptTail_preserves _ _ _).2.trans h2⟩

/-- C3 (amended): `acceptCall` on an `INCOMING` record transitions it
to `ACCEPTED`; the 60-second auto-reject timer is NOT cancelled (the
armed set is left exactly as it was), but after the accept any firing
of the timer performs no rejection: it emits nothing and leaves the
Call Record in place, because the firing guard requires the record to
still be `INCOMING`. -/
theorem C3_accept_disarms_timeout_effect (s : St) (c : CallRec) (env : MediaEnv)
    (hc : s.currentCall = some c) (_hst : c.status = .incoming) :
    (acceptCall s env).1.currentCall.map (·.status) = some .accepted ∧
    (acceptCall s env).1.autoRejectTimeouts = s.autoRejectTimeouts ∧
    (∀ cid, (autoRejectFire (acceptCall s env).1 cid).2 = [] ∧
      (autoRejectFire (acceptCall s env).1 cid).1.currentCall =
        (acceptCall s env).1.currentCall) := by
  obtain ⟨h1, h2⟩ := acceptCall_preserves s c env hc
  refine ⟨by rw [h1]; rfl, h2, ?_⟩
  intro cid
  exact autoRejectFire_noReject_some cid h1 (by simp)

theorem C3_accept_disarms_timeout_effect_witness :
    sI.currentCall = some ({ id := 7, userId := 2, staffUserId := 5,
                             status := .incoming }) ∧
    7 ∈ sI.autoRejectTimeouts ∧
    ((acceptCall sI menv).1.currentCall.map (·.status) = some .accepted ∧
      (acceptCall sI menv).1.autoRejectTimeouts = sI.autoRejectTimeouts ∧
      (∀ cid, (autoRejectFire (acceptCall sI menv).1 cid).2 = [] ∧
        (autoRejectFire (acceptCall sI menv).1 cid).1.currentCall =
          (acceptCall sI menv).1.currentCall)) :=
  ⟨by decide, by decide,
   C3_accept_disarms_timeout_effect sI
     { id := 7, userId := 2, staffUserId := 5, status := .incoming }
     menv (by decide) rfl⟩

/-- C1 (amended): a duplicate accept is idempotent on the session
state — from the post-accept state (record `ACCEPTED`, pending offer
already consumed, handle settled) a second `acceptCall` leaves the
state unchanged, so no second negotiation handle is created and the
offer is not consumed twice — but each invocation re-sends the
`call-accept` notification over the transport (exactly one per
invocation, hence two across a duplicate accept). -/
theorem C1_second_accept_idempotent (s : St) (c : CallRec) (p : PeerConn)
    (stream : CaptureStream) (env : MediaEnv)
    (hc : s.currentCall = some c) (hst : c.status = .accepted)
    (hpo : mapGet c.id s.pendingOffers = none)
    (hls : s.localStream = some stream) (htr : stream.tracks.isEmpty = false)
    (hpc : s.peerConnection = some p) (hsend : p.senders.isEmpty = false)
    (hstb : p.signalingState = .stable)
    (hice : ¬(p.iceConnectionState = .connected ∨
              p.iceConnectionState = .completed)) :
    (acceptCall s env).1 = s ∧ countAccept (acceptCall s env).2 = 1 := by
  have hcc : ({ c with status := CallStatus.accepted }) = c := by
    cases c with
    | mk i u su stt =>
      cases hst
      rfl
  have hs1 :
      ({ s with currentCall := some ({ c with status := CallStatus.accepted }) } : St) = s := by
    rw [hcc, ← hc]
  have hppod : processPendingOfferDirectly s c.id env = (s, [], false) := by
    unfold processPendingOfferDirectly
    rw [hpo]
  have hem : ensureMedia s env = some s := by
    unfold ensureMedia
    rw [hls]
    rfl
  have hs3 :
      ({ s with peerConnection := some p, localStream := some stream } : St) = s := by
    rw [← hpc, ← hls]
  have htr' : ¬(stream.tracks.isEmpty = true) := by
    rw [htr]; exact Bool.false_ne_true
  have hsend' : ¬(p.senders.isEmpty = true) := by
    rw [hsend]; exact Bool.false_ne_true
  unfold acceptCall
  rw [hc]
  dsimp only
  rw [hs1, hppod]
  dsimp only
  rw [hem]
  dsimp only
  unfold acceptTail
  rw [hls]
  dsimp only
  rw [if_neg htr', hpc]
  dsimp only
  rw [if_neg hsend']
  rw [if_pos hstb, if_neg (fun h => hice h.1), hs3]
  exact ⟨rfl, by simp [countAccept, List.countP_cons]⟩

theorem C1_second_accept_idempotent_witness :
    sAcc.currentCall = some cAcc ∧ cAcc.status = .accepted ∧
    mapGet cAcc.id sAcc.pendingOffers = none ∧
    sAcc.localStream = some stream1 ∧
    sAcc.peerConnection = some pAcc ∧ pAcc.signalingState = .stable ∧
    ((acceptCall sAcc menv).1 = sAcc ∧
      countAccept (acceptCall sAcc menv).2 = 1) :=
  ⟨by decide, rfl, by decide, by decide, by decide, rfl,
   C1_second_accept_idempotent sAcc cAcc pAcc stream1 menv (by decide) rfl
     (by decide) (by decide) rfl (by decide) rfl rfl (by decide)⟩

theorem C4_duplicate_answers_ignored_witness :
    sHLO.peerConnection = some pHLO ∧
    pHLO.signalingState = .haveLocalOffer ∧
    aMsg.answer.kind = .answerKind ∧
    (((handleAnswer sHLO aMsg).1.peerConnection.map (·.remoteDescription)) =
        some (some aMsg.answer) ∧
      runAnswers (handleAnswer sHLO aMsg).1 [aMsg, aMsg] =
        ((handleAnswer sHLO aMsg).1, [])) :=
  ⟨rfl, rfl, rfl,
   C4_duplicate_answers_ignored sHLO pHLO aMsg [aMsg, aMsg] rfl rfl rfl⟩

end SocketTest
